import Mathlib

/-!
# Auction marketplace back end: request handlers

A shallow embedding of the request handlers of
`backend/src/controllers/auction.controller.js` and
`backend/src/controllers/user.controller.js`.

The handlers are `async` functions that talk to collaborators (the image
store `uploadOnCloudinary`, the mongoose models `Auction` and `User`).  Each
handler is embedded as a pure function of the request and of an environment
holding the collaborators' answers; it returns the response together with the
ordered list of collaborator calls it made.
-/

namespace AuctionSite

/-! ## JavaScript values -/

/-- A JavaScript number: every finite double is a rational, so finite numbers
are kept as rationals; `NaN` and the two infinities are separate. -/
inductive JSNum where
  | nan
  | negInf
  | fin (q : ℚ)
  | posInf
  deriving DecidableEq

/-- The primitive JavaScript values a request field can hold. -/
inductive JSVal where
  | undefined
  | null
  | bool (b : Bool)
  | num (n : JSNum)
  | str (s : String)
  deriving DecidableEq

/-- The comparison `x < y` on numbers; `none` is the `undefined` result when a `NaN` is involved. -/
def JSNum.lt : JSNum → JSNum → Option Bool
  | .nan, _ => none
  | _, .nan => none
  | .negInf, .negInf => some false
  | .negInf, _ => some true
  | _, .negInf => some false
  | .posInf, _ => some false
  | _, .posInf => some true
  | .fin a, .fin b => some (decide (a < b))

/-- UTF-16 code units of one character. -/
def utf16Units (c : Char) : List Nat :=
  if c.toNat < 0x10000 then [c.toNat]
  else [0xD800 + (c.toNat - 0x10000) / 0x400, 0xDC00 + (c.toNat - 0x10000) % 0x400]

/-- UTF-16 code units of a string, the sequence JavaScript compares. -/
def utf16 (s : String) : List Nat :=
  s.toList.flatMap utf16Units

/-- Lexicographic `<` on code-unit sequences (a proper prefix is smaller). -/
def lexLt : List Nat → List Nat → Bool
  | [], [] => false
  | [], _ :: _ => true
  | _ :: _, [] => false
  | a :: as, b :: bs => decide (a < b) || (decide (a = b) && lexLt as bs)

/-- Truthiness: `!v` is `false` exactly when `truthy v`. -/
def truthy : JSVal → Bool
  | .undefined => false
  | .null => false
  | .bool b => b
  | .num .nan => false
  | .num (.fin q) => decide (q ≠ 0)
  | .num _ => true
  | .str s => decide (s ≠ "")

/-- The abstract operation `ToNumber` on primitives; the conversion of strings
belongs to the runtime and is passed in. -/
def toNumber (stringToNumber : String → JSNum) : JSVal → JSNum
  | .undefined => .nan
  | .null => .fin 0
  | .bool true => .fin 1
  | .bool false => .fin 0
  | .num n => n
  | .str s => stringToNumber s

/-- The relational comparison `a < b`: two strings compare by code units,
anything else numerically; `none` is `undefined`. -/
def jsLt (stringToNumber : String → JSNum) : JSVal → JSVal → Option Bool
  | .str a, .str b => some (lexLt (utf16 a) (utf16 b))
  | a, b => JSNum.lt (toNumber stringToNumber a) (toNumber stringToNumber b)

/-- The operator `a >= b`: true exactly when `a < b` is `false`. -/
def jsGe (stringToNumber : String → JSNum) (a b : JSVal) : Bool :=
  jsLt stringToNumber a b == some false

/-- The operator `a <= b`: true exactly when `b < a` is `false`. -/
def jsLe (stringToNumber : String → JSNum) (a b : JSVal) : Bool :=
  jsLt stringToNumber b a == some false

/-- A thrown value, as the `catch` blocks read it: its `statusCode` property
(`none` when it has none) and its `message` property. -/
structure JSError where
  statusCode : Option Nat
  message : JSVal
  deriving DecidableEq

/-- The expression `error?.message || fallback`. -/
def messageOr (e : JSError) (fallback : String) : JSVal :=
  if truthy e.message then e.message else .str fallback

/-- The expression `error.statusCode || 500`. -/
def statusOr500 (e : JSError) : Nat :=
  match e.statusCode with
  | none => 500
  | some n => if n = 0 then 500 else n

/-! ## Responses -/

/-- What a handler sends: the HTTP status given to `res.status` (200 when the
handler calls `res.json` directly) and the three arguments of `new ApiResponse`. -/
structure Response (α : Type) where
  status : Nat
  statusCode : Nat
  message : JSVal
  data : Option α

/-- The call `res.status(code).json(new ApiResponse(code, message))`. -/
def respond {α : Type} (code : Nat) (message : JSVal) : Response α :=
  { status := code, statusCode := code, message := message, data := none }

/-! ## Auctions -/

/-- The `status` enum of the auction schema (controller lines 16-20). -/
inductive AuctionStatus where
  | upcoming
  | active
  | over
  deriving DecidableEq

/-- The object literal handed to `Auction.create` (controller lines 87-97).
It has exactly these nine properties. -/
structure AuctionInput where
  name : JSVal
  description : JSVal
  category : JSVal
  seller : JSVal
  startTime : JSVal
  endTime : JSVal
  location : JSVal
  image : JSVal
  startingPrice : JSVal
  deriving DecidableEq

/-- A stored auction document, after the schema of controller lines 8-25.
Times are instants in epoch milliseconds. -/
structure AuctionDoc where
  name : JSVal
  description : JSVal
  category : JSVal
  seller : JSVal
  startTime : Int
  endTime : Int
  bids : List JSVal
  winner : JSVal
  status : AuctionStatus
  location : JSVal
  image : JSVal
  startingPrice : JSNum
  deriving DecidableEq

/-- Outcome of `await uploadOnCloudinary(path)`: it throws, or resolves to
`null`, or resolves to the upload response, an object of which the handlers
read only the `url` property. -/
inductive UploadOutcome where
  | throws (error : JSError)
  | null
  | object (url : JSVal)

/-- Outcome of an awaited store call: it throws, or resolves to a falsy value
(`none`) or to a value. -/
inductive StoreOutcome (α : Type) where
  | throws (error : JSError)
  | returned (value : Option α)

/-- The request as `createAuction` reads it: seven body fields, `req.file?.path`
and `req.user` (`none` when no principal is attached, otherwise its `_id`). -/
structure CreateRequest where
  name : JSVal
  description : JSVal
  category : JSVal
  startTime : JSVal
  endTime : JSVal
  startingPrice : JSVal
  location : JSVal
  image : JSVal
  user : Option JSVal

/-- The collaborators of `createAuction`: the runtime's conversion of strings
to numbers, the clock (which the handler never reads), the image store and
`Auction.create`. -/
structure CreateEnv where
  stringToNumber : String → JSNum
  now : Int
  uploadOnCloudinary : JSVal → UploadOutcome
  create : AuctionInput → StoreOutcome AuctionDoc

/-- The object `{ $regex: itemName, $options: "i" }` of controller line 132. -/
structure RegexQuery where
  regex : JSVal
  options : String
  deriving DecidableEq

/-- The filter object built by `getAllAuctions`; `none` is a property that
was never assigned. -/
structure AuctionFilter where
  location : Option JSVal
  category : Option JSVal
  name : Option RegexQuery
  deriving DecidableEq

/-- A collaborator call made by a handler of the auction controller. -/
inductive Call where
  | upload (path : JSVal)
  | create (input : AuctionInput)
  | find (filter : AuctionFilter)
  | findById (id : JSVal)
  deriving DecidableEq

/-- Whether a call writes to the auction store. -/
def Call.isWrite : Call → Bool
  | .create _ => true
  | _ => false

/-- A handler run: the response sent and the collaborator calls, in order. -/
structure Run (κ α : Type) where
  response : Response α
  calls : List κ

/-- The presence test of controller lines 50-59. -/
def CreateRequest.allPresent (r : CreateRequest) : Bool :=
  truthy r.name && truthy r.description && truthy r.category && truthy r.startTime &&
    truthy r.endTime && truthy r.startingPrice && truthy r.location && truthy r.image

/-- The object literal of controller lines 87-97. -/
def CreateRequest.toInput (r : CreateRequest) (seller url : JSVal) : AuctionInput :=
  { name := r.name, description := r.description, category := r.category, seller := seller,
    startTime := r.startTime, endTime := r.endTime, location := r.location, image := url,
    startingPrice := r.startingPrice }

/-- The `TypeError` raised by `req.user._id` when `req.user` is undefined. -/
def noUserError : JSError :=
  JSError.mk none <| .str "Cannot read properties of undefined (reading \x27_id\x27)"

/-- The handler `createAuction` (controller lines 30-114). -/
def createAuction (env : CreateEnv) (r : CreateRequest) : Run Call AuctionDoc :=
  if !r.allPresent then
    ⟨respond 400 (.str "All fields are required"), []⟩
  else if jsGe env.stringToNumber r.startTime r.endTime then
    ⟨respond 400 (.str "Start time must be before end time"), []⟩
  else if jsLe env.stringToNumber r.startingPrice (.num (.fin 0)) then
    ⟨respond 400 (.str "Starting price must be a positive number"), []⟩
  else
    match env.uploadOnCloudinary r.image with
    | .throws m => ⟨respond 500 (messageOr m "Internal server error"), [.upload r.image]⟩
    | .null => ⟨respond 500 (.str "Error uploading image"), [.upload r.image]⟩
    | .object url =>
      match r.user with
      | none => ⟨respond 500 (messageOr noUserError "Internal server error"), [.upload r.image]⟩
      | some uid =>
        match env.create (r.toInput uid url) with
        | .throws m =>
          ⟨respond 500 (messageOr m "Internal server error"),
            [.upload r.image, .create (r.toInput uid url)]⟩
        | .returned none =>
          ⟨respond 500 (.str "Error creating auction"),
            [.upload r.image, .create (r.toInput uid url)]⟩
        | .returned (some doc) =>
          ⟨{ status := 201, statusCode := 201,
             message := .str "Auction created successfully", data := some doc },
            [.upload r.image, .create (r.toInput uid url)]⟩

/-- The document a call left in the store, if any. -/
def persistedBy (env : CreateEnv) : Call → Option AuctionDoc
  | .create input =>
    match env.create input with
    | .returned (some doc) => some doc
    | _ => none
  | _ => none

/-- The documents a run left in the store. -/
def persisted (env : CreateEnv) (run : Run Call AuctionDoc) : List AuctionDoc :=
  run.calls.filterMap (persistedBy env)

/-! ## The auction store behind `Auction.create` -/

/-- Value read off a run of decimal digits, most significant first. -/
def digitsValue (cs : List Char) : Nat :=
  cs.foldl (fun n c => 10 * n + (c.toNat - 48)) 0

/-- The branch of the store's date cast for a text of decimal digits whose value
is at least 275761: mongoose casts a string `s` with `Number(s) >= 275761` to
`new Date(Number(s))`, which is a date up to 8640000000000000 ms, the largest
time value, and an invalid date, refused, beyond.  Every other value (shorter
numbers, ISO texts, other formats) is left to `other`, the rest of the cast. -/
def epochMillis (other : JSVal → Option Int) : JSVal → Option Int
  | .str s =>
    if s.toList ≠ [] ∧ s.toList.all Char.isDigit ∧ 275761 ≤ digitsValue s.toList then
      if digitsValue s.toList ≤ 8640000000000000 then some (digitsValue s.toList) else none
    else other (.str s)
  | v => other v

/-- A hexadecimal digit. -/
def isHexDigit (c : Char) : Bool :=
  c.isDigit || (decide ('a' ≤ c) && decide (c ≤ 'f')) || (decide ('A' ≤ c) && decide (c ≤ 'F'))

/-- The branch of the store's ObjectId cast for texts: a string of 24 hexadecimal
digits is an id, `undefined` and `null` are no value.  Every other value is left
to `other`, the rest of the cast (what it accepts depends on the driver). -/
def hexObjectId (other : JSVal → Option JSVal) : JSVal → Option JSVal
  | .undefined => none
  | .null => none
  | .str s =>
    if s.toList.length = 24 ∧ s.toList.all isHexDigit then some (.str s) else other (.str s)
  | v => other v

/-- The store's number cast: `null`, `undefined` and the empty string are no
value, a string or boolean goes through `Number(...)`, and `NaN` is refused. -/
def castNumber (stringToNumber : String → JSNum) (v : JSVal) : Option JSNum :=
  if v = .undefined ∨ v = .null ∨ v = .str "" then none
  else if toNumber stringToNumber v = .nan then none
  else some (toNumber stringToNumber v)

/-- A required path holds a value: not `undefined`, `null` or the empty string. -/
def hasValue (v : JSVal) : Bool :=
  decide (v ≠ .undefined ∧ v ≠ .null ∧ v ≠ .str "")

/-- The error a failed schema validation raises. -/
def validationError : JSError :=
  { statusCode := none, message := .str "Auction validation failed" }

/-- Modelled from the spec: the Auction model (`models/auction.model.js`) is not
among the sources.  This follows the schema reproduced at controller lines 8-25
and the data model of the spec (section 3): `name`, `category`, `seller`,
`startTime`, `endTime`, `image` and `startingPrice` are required, `category` and
`seller` are cast to ObjectIds (`castObjectId`), the two times to dates
(`castDate`) and the price to a number, a status that is not supplied takes the
schema default `upcoming`, and a new auction has no bids and no winner.
`Auction.create` resolves to the stored document or throws. -/
def schemaCreate (castObjectId : JSVal → Option JSVal) (castDate : JSVal → Option Int)
    (stringToNumber : String → JSNum) (input : AuctionInput) : StoreOutcome AuctionDoc :=
  if hasValue input.name && hasValue input.category && hasValue input.seller &&
      hasValue input.image then
    match castObjectId input.category, castObjectId input.seller, castDate input.startTime,
        castDate input.endTime, castNumber stringToNumber input.startingPrice with
    | some c, some sl, some s, some e, some p =>
      .returned (some
        { name := input.name, description := input.description, category := c,
          seller := sl, startTime := s, endTime := e, bids := [],
          winner := .undefined, status := .upcoming, location := input.location,
          image := input.image, startingPrice := p })
    | _, _, _, _, _ => .throws validationError
  else .throws validationError

/-! ## Listing and reading auctions -/

/-- The body fields `getAllAuctions` reads (controller line 126). -/
structure ListRequest where
  location : JSVal
  category : JSVal
  itemName : JSVal

/-- The filter construction of controller lines 128-133. -/
def buildFilter (r : ListRequest) : AuctionFilter :=
  { location := if truthy r.location then some r.location else none,
    category := if truthy r.category then some r.category else none,
    name := if truthy r.itemName then some { regex := r.itemName, options := "i" } else none }

/-- Modelled from the spec: the evaluation of a filter by the store is not among
the sources.  Following the spec (sections 4.1 and 9), each property that is set
is one predicate and the filter is their logical AND: `location` and `category`
are equalities, `name` is a regular-expression match carried out by `regexTest`
(pattern, options, subject). -/
def AuctionFilter.holds (regexTest : JSVal → String → JSVal → Bool)
    (f : AuctionFilter) (d : AuctionDoc) : Bool :=
  (match f.location with
    | none => true
    | some v => decide (d.location = v)) &&
  (match f.category with
    | none => true
    | some v => decide (d.category = v)) &&
  (match f.name with
    | none => true
    | some q => regexTest q.regex q.options d.name)

/-- The handler `getAllAuctions` (controller lines 120-151).  The value
`Auction.find` resolves to is tested with `!auctions`; an array, empty or not,
is an object and so is truthy: it is the `some` case. -/
def getAllAuctions (find : AuctionFilter → StoreOutcome (List AuctionDoc))
    (r : ListRequest) : Run Call (List AuctionDoc) :=
  match find (buildFilter r) with
  | .throws e =>
    ⟨respond 500 (messageOr e "Internal server error"), [.find (buildFilter r)]⟩
  | .returned none =>
    ⟨respond 404 (.str "No auctions found"), [.find (buildFilter r)]⟩
  | .returned (some auctions) =>
    ⟨{ status := 200, statusCode := 200,
       message := .str "Auctions retrieved successfully", data := some auctions },
      [.find (buildFilter r)]⟩

/-- The handler `getSingleAuctionById` (controller lines 160-179); `lookup` is
the awaited chain `Auction.findById(id).populate(...)` of line 166, which yields
documents of type `α`. -/
def getSingleAuctionById {α : Type} (lookup : JSVal → StoreOutcome α)
    (id : JSVal) : Run Call α :=
  match lookup id with
  | .throws e => ⟨respond 500 (messageOr e "Internal server error"), [.findById id]⟩
  | .returned none => ⟨respond 404 (.str "Auction not found"), [.findById id]⟩
  | .returned (some auction) =>
    ⟨{ status := 200, statusCode := 200,
       message := .str "Auction retrieved successfully", data := some auction },
      [.findById id]⟩

/-! ## User profiles -/

/-- A user document: the eight paths `updateUserProfile` assigns and the other
paths the user controller reads or writes. -/
structure UserDoc where
  id : JSVal
  fullName : JSVal
  email : JSVal
  location : JSVal
  userType : JSVal
  profilePicture : JSVal
  phone : JSVal
  address : JSVal
  city : JSVal
  password : JSVal
  resetToken : JSVal
  resetTokenExpire : JSVal
  deriving DecidableEq

/-- The request as `updateUserProfile` reads it: seven body fields,
`req.file?.path` and `req.user?._id`. -/
structure ProfileRequest where
  fullName : JSVal
  email : JSVal
  location : JSVal
  userType : JSVal
  phone : JSVal
  address : JSVal
  city : JSVal
  profilePath : JSVal
  userId : JSVal

/-- The collaborators of `updateUserProfile`; `save` yields the error thrown
by `user.save()`, if any. -/
structure ProfileEnv where
  findById : JSVal → StoreOutcome UserDoc
  uploadOnCloudinary : JSVal → UploadOutcome
  save : UserDoc → Option JSError

/-- A collaborator call made by `updateUserProfile`. -/
inductive UserCall where
  | findById (id : JSVal)
  | upload (path : JSVal)
  | save (user : UserDoc)
  deriving DecidableEq

/-- The `catch` block of user controller lines 268-277. -/
def caught {α : Type} (e : JSError) : Response α :=
  { status := statusOr500 e, statusCode := statusOr500 e,
    message := messageOr e "Internal Server Error", data := none }

/-- The value thrown by `throw new ApiError(404, "User not found")`. -/
def userNotFound : JSError :=
  { statusCode := some 404, message := .str "User not found" }

/-- The `TypeError` raised by `imgUrlCloudinary.url` when the upload resolved to `null`. -/
def nullUrlError : JSError :=
  { statusCode := none, message := .str "Cannot read properties of null (reading \x27url\x27)" }

/-- The `ReferenceError` raised by the call `next(...)` of line 251: the handler
has parameters `req` and `res` only and the module binds no `next`. -/
def nextNotDefined : JSError :=
  { statusCode := none, message := .str "next is not defined" }

/-- The assignments of user controller lines 254-263. -/
def applyProfile (r : ProfileRequest) (url : JSVal) (user : UserDoc) : UserDoc :=
  { user with
    fullName := if truthy r.fullName then r.fullName else user.fullName
    email := if truthy r.email then r.email else user.email
    location := if truthy r.location then r.location else user.location
    userType := if truthy r.userType then r.userType else user.userType
    profilePicture := if truthy url then url else user.profilePicture
    phone := if truthy r.phone then r.phone else user.phone
    address := if truthy r.address then r.address else user.address
    city := if truthy r.city then r.city else user.city }

/-- The handler `updateUserProfile` (user controller lines 232-279). -/
def updateUserProfile (env : ProfileEnv) (r : ProfileRequest) : Run UserCall UserDoc :=
  match env.findById r.userId with
  | .throws e => ⟨caught e, [.findById r.userId]⟩
  | .returned none => ⟨caught userNotFound, [.findById r.userId]⟩
  | .returned (some user) =>
    match env.uploadOnCloudinary r.profilePath with
    | .throws e => ⟨caught e, [.findById r.userId, .upload r.profilePath]⟩
    | .null => ⟨caught nullUrlError, [.findById r.userId, .upload r.profilePath]⟩
    | .object url =>
      if !truthy url then
        ⟨caught nextNotDefined, [.findById r.userId, .upload r.profilePath]⟩
      else
        match env.save (applyProfile r url user) with
        | some e =>
          ⟨caught e,
            [.findById r.userId, .upload r.profilePath, .save (applyProfile r url user)]⟩
        | none =>
          ⟨{ status := 200, statusCode := 200,
             message := .str "User profile updated successfully",
             data := some (applyProfile r url user) },
            [.findById r.userId, .upload r.profilePath, .save (applyProfile r url user)]⟩

/-- The documents a run handed to `user.save()`. -/
def savedUsers (run : Run UserCall UserDoc) : List UserDoc :=
  run.calls.filterMap fun c =>
    match c with
    | .save u => some u
    | _ => none

/-! ## Sample data -/

/-- The branch of the runtime's `Number(s)` for a text of at most 15 decimal
digits, which converts exactly (the empty text gives 0).  Every other text
(signs, fractions, exponents, longer numbers that need rounding) is left to
`other`, the rest of the conversion. -/
def decimalToNumber (other : String → JSNum) (s : String) : JSNum :=
  if s.toList.all Char.isDigit ∧ s.toList.length ≤ 15 then .fin (digitsValue s.toList)
  else other s

/-- An environment whose store is the schema store. -/
def schemaEnv (castObjectId : JSVal → Option JSVal) (castDate : JSVal → Option Int)
    (stringToNumber : String → JSNum) (now : Int) (upload : JSVal → UploadOutcome) :
    CreateEnv :=
  { stringToNumber := stringToNumber, now := now, uploadOnCloudinary := upload,
    create := schemaCreate castObjectId castDate stringToNumber }

/-- The image store of the samples: every upload returns this URL. -/
def lampUpload : JSVal → UploadOutcome :=
  fun _ => .object (.str "https://res.cloudinary.com/demo/lamp.jpg")

/-- A sample environment: the clock reads 20000000 ms, every upload succeeds and
the store is the schema store.  The samples put to the runtime and to the store
only short decimal numbers, numeric epoch texts and 24-digit hexadecimal ids,
which the three branches above answer; in this environment anything else
converts to `NaN` and is refused by the casts. -/
def sampleEnv : CreateEnv :=
  schemaEnv (hexObjectId fun _ => none) (epochMillis fun _ => none)
    (decimalToNumber fun _ => .nan) 20000000 lampUpload

/-- A create request whose window runs from 10000000 ms to 90000000 ms; the
category and the principal are 24-digit hexadecimal ids. -/
def lampRequest : CreateRequest :=
  { name := .str "Lamp", description := .str "Brass lamp",
    category := .str "64b7f0c2a1d3e4f5a6b7c8d9",
    startTime := .str "10000000", endTime := .str "90000000", startingPrice := .str "100",
    location := .str "Lahore", image := .str "uploads/lamp.jpg",
    user := some (.str "64b7f0c2a1d3e4f5a6b7c8da") }

/-- The document the schema store keeps for `lampRequest` in `sampleEnv`. -/
def lampDoc : AuctionDoc :=
  { name := .str "Lamp", description := .str "Brass lamp",
    category := .str "64b7f0c2a1d3e4f5a6b7c8d9", seller := .str "64b7f0c2a1d3e4f5a6b7c8da",
    startTime := 10000000, endTime := 90000000, bids := [],
    winner := .undefined, status := .upcoming, location := .str "Lahore",
    image := .str "https://res.cloudinary.com/demo/lamp.jpg", startingPrice := .fin 100 }

/-- An environment like `sampleEnv` whose image store resolves to `null`. -/
def failingUploadEnv : CreateEnv :=
  { sampleEnv with uploadOnCloudinary := fun _ => .null }

/-- The same request with the end at 9000000 ms, one million ms before the start. -/
def invertedWindow : CreateRequest :=
  { lampRequest with endTime := .str "9000000" }

/-- A stored user. -/
def sampleUser : UserDoc :=
  { id := .str "u1", fullName := .str "old name", email := .str "old@example.com",
    location := .str "Lahore", userType := .str "seller",
    profilePicture := .str "https://res.cloudinary.com/demo/old.jpg", phone := .str "0300",
    address := .str "1 Mall Road", city := .str "Lahore", password := .str "hash",
    resetToken := .undefined, resetTokenExpire := .undefined }

/-- A sample environment for profile updates: the user exists, the image store
returns a URL for a file path and `null` when it is given no path, and every
save succeeds. -/
def profileEnv : ProfileEnv :=
  { findById := fun _ => .returned (some sampleUser),
    uploadOnCloudinary := fun path =>
      if truthy path then .object (.str "https://res.cloudinary.com/demo/new.jpg") else .null,
    save := fun _ => none }

/-- A profile update that supplies a new full name and no picture. -/
def renameRequest : ProfileRequest :=
  { fullName := .str "New Name", email := .undefined, location := .undefined,
    userType := .undefined, phone := .undefined, address := .undefined, city := .undefined,
    profilePath := .undefined, userId := .str "u1" }

/-! ## Login and password reset -/

/-- How a handler without a `catch` block of its own ends: it sends a response
(with the cookies it set), or an error escapes to `asyncHandler`. -/
inductive Ending (α : Type) where
  | sent (response : Response α) (cookies : List (String × JSVal))
  | escaped (error : JSError)

/-- A run of such a handler: how it ended and the collaborator calls, in order. -/
structure OpenRun (κ α : Type) where
  ending : Ending α
  calls : List κ

/-- A collaborator call made by `loginUser` or `resetPassword`. -/
inductive AuthCall where
  | findOne (email : JSVal)
  | compare (password hash : JSVal)
  | generateJwtToken (user : UserDoc)
  | findById (id : JSVal)
  | save (user : UserDoc)
  deriving DecidableEq

/-- The strict comparison `a === b` on primitives. -/
def strictEq : JSVal → JSVal → Bool
  | .num .nan, _ => false
  | _, .num .nan => false
  | a, b => decide (a = b)

/-- The body fields `loginUser` reads (user controller line 72). -/
structure LoginRequest where
  email : JSVal
  password : JSVal

/-- The object `{ user: loggedInUser, JwtToken }` of user controller lines 104-107. -/
structure LoginData where
  user : Option UserDoc
  JwtToken : JSVal

/-- The collaborators of `loginUser`: `User.findOne({ email })`,
`bcrypt.compare(password, user.password)`, `user.generateJwtToken()` and
`User.findById(user._id).select("-password")`. -/
structure LoginEnv where
  findOne : JSVal → StoreOutcome UserDoc
  compare : JSVal → JSVal → Except JSError Bool
  generateJwtToken : UserDoc → Except JSError JSVal
  findById : JSVal → StoreOutcome UserDoc

/-- The handler `loginUser` (user controller lines 64-109). -/
def loginUser (env : LoginEnv) (r : LoginRequest) : OpenRun AuthCall LoginData :=
  if !truthy r.password && !truthy r.email then
    ⟨.sent (respond 400 (.str "Email and password are required")) [], []⟩
  else
    match env.findOne r.email with
    | .throws e => ⟨.escaped e, [.findOne r.email]⟩
    | .returned none => ⟨.sent (respond 404 (.str "User not found")) [], [.findOne r.email]⟩
    | .returned (some user) =>
      match env.compare r.password user.password with
      | .error e => ⟨.escaped e, [.findOne r.email, .compare r.password user.password]⟩
      | .ok false =>
        ⟨.sent (respond 401 (.str "Invalid password")) [],
          [.findOne r.email, .compare r.password user.password]⟩
      | .ok true =>
        match env.generateJwtToken user with
        | .error e =>
          ⟨.escaped e,
            [.findOne r.email, .compare r.password user.password, .generateJwtToken user]⟩
        | .ok token =>
          match env.findById user.id with
          | .throws e =>
            ⟨.escaped e,
              [.findOne r.email, .compare r.password user.password, .generateJwtToken user,
                .findById user.id]⟩
          | .returned loggedInUser =>
            ⟨.sent
                { status := 200, statusCode := 200,
                  message := .str "User logged in successfully",
                  data := some ⟨loggedInUser, token⟩ }
                [("JwtToken", token)],
              [.findOne r.email, .compare r.password user.password, .generateJwtToken user,
                .findById user.id]⟩

/-- The users of the store, keyed by id. -/
abbrev Users := JSVal → Option UserDoc

/-- What `resetPassword` reads from the request: `req.params.id`,
`req.params.token` and `req.body.password`. -/
structure ResetRequest where
  id : JSVal
  token : JSVal
  password : JSVal

/-- Modelled from the spec: the User model (`models/user.model.js`) is not among
the sources.  The spec treats user storage as peripheral record keeping
(section 1): `User.findById` yields the document stored under the id, or throws
the error `lookupError` gives for that id; `user.save()` throws the error
`saveError` gives for the document, or stores the document under its id, the
password it keeps being `hash` of the one assigned (`hash` is arbitrary). -/
structure ResetEnv where
  stringToNumber : String → JSNum
  lookupError : JSVal → Option JSError
  saveError : UserDoc → Option JSError
  hash : JSVal → JSVal

/-- The assignments of user controller lines 203-205. -/
def applyReset (password : JSVal) (user : UserDoc) : UserDoc :=
  { user with password := password, resetToken := .undefined, resetTokenExpire := .undefined }

/-- The handler `resetPassword` (user controller lines 176-215), run at clock
reading `now` (the value of `Date.now()`) on the user store `users`; it returns
the run and the store it leaves. -/
def resetPassword (env : ResetEnv) (now : Int) (users : Users) (r : ResetRequest) :
    OpenRun AuthCall Unit × Users :=
  if !truthy r.id || !truthy r.token || !truthy r.password then
    (⟨.sent (respond 400 (.str "Invalid request")) [], []⟩, users)
  else
    match env.lookupError r.id with
    | some e => (⟨.escaped e, [.findById r.id]⟩, users)
    | none =>
      match users r.id with
      | none => (⟨.sent (respond 404 (.str "User not found")) [], [.findById r.id]⟩, users)
      | some user =>
        if !truthy user.resetToken then
          (⟨.sent (respond 400 (.str "Invalid reset link")) [], [.findById r.id]⟩, users)
        else if !strictEq user.resetToken r.token then
          (⟨.sent (respond 400 (.str "Invalid reset link")) [], [.findById r.id]⟩, users)
        else if jsLt env.stringToNumber user.resetTokenExpire (.num (.fin now)) = some true then
          (⟨.sent (respond 400 (.str "Reset link expired")) [], [.findById r.id]⟩, users)
        else
          match env.saveError (applyReset r.password user) with
          | some _ =>
            (⟨.sent (respond 500 (.str "Error resetting password")) [],
                [.findById r.id, .save (applyReset r.password user)]⟩, users)
          | none =>
            (⟨.sent (respond 200 (.str "Password reset successfully")) [],
                [.findById r.id, .save (applyReset r.password user)]⟩,
              Function.update users r.id
                (some { applyReset r.password user with password := env.hash r.password }))

/-- The status of the response a run sent, if it sent one. -/
def sentStatus {κ α : Type} (run : OpenRun κ α) : Option Nat :=
  match run.ending with
  | .sent response _ => some response.status
  | .escaped _ => none

/-- The message of the response a run sent, if it sent one. -/
def sentMessage {κ α : Type} (run : OpenRun κ α) : Option JSVal :=
  match run.ending with
  | .sent response _ => some response.message
  | .escaped _ => none

/-- The error `bcrypt.compare` rejects with when the password is not a string. -/
def illegalArguments : JSError :=
  { statusCode := none, message := .str "Illegal arguments: undefined, string" }

/-- A sample environment for logins: `sampleUser` is the one user, found by the
address "old@example.com"; a password that is not a string makes the comparison
fail with `illegalArguments`, and the stored hash matches the password "secret". -/
def loginEnv : LoginEnv :=
  { findOne := fun email =>
      if email = .str "old@example.com" then .returned (some sampleUser) else .returned none,
    compare := fun password _ =>
      match password with
      | .str s => .ok (decide (s = "secret"))
      | _ => .error illegalArguments,
    generateJwtToken := fun _ => .ok (.str "jwt"),
    findById := fun _ => .returned (some sampleUser) }

/-- A login request that carries the address and no password. -/
def emailOnly : LoginRequest :=
  { email := .str "old@example.com", password := .undefined }

/-- A login request that carries a password and no address. -/
def passwordOnly : LoginRequest :=
  { email := .undefined, password := .str "secret" }

/-- The stored user with a reset token "tok" that expires at 5000 ms. -/
def resetUser : UserDoc :=
  { sampleUser with resetToken := .str "tok", resetTokenExpire := .num (.fin 5000) }

/-- A store holding `resetUser` under the id "u1". -/
def resetUsers : Users :=
  fun id => if id = .str "u1" then some resetUser else none

/-- A sample environment for resets: no lookup or save fails and the stored
password is the assigned one; the samples compare numbers only, and the runtime
converts any text beyond a short decimal number to `NaN`. -/
def resetEnv : ResetEnv :=
  { stringToNumber := decimalToNumber fun _ => .nan, lookupError := fun _ => none,
    saveError := fun _ => none, hash := fun p => p }

/-- A reset request for "u1" with the token "tok" and a new password. -/
def resetRequest : ResetRequest :=
  { id := .str "u1", token := .str "tok", password := .str "fresh" }

/-! ## Bid admission

The sources register three routes (list, create, read one: `auction.routes.js`
lines 14-17) and export three handlers (controller lines 181-184); none of them
places a bid.  The bid path below follows the specification. -/

namespace BidEngine

/-- Lifecycle states of the spec (section 3). -/
inductive Status where
  | upcoming
  | active
  | closed
  deriving DecidableEq

/-- An admitted bid (spec section 3). -/
structure Bid where
  auction : Nat
  bidder : Nat
  amount : ℚ
  timestamp : Int
  deriving DecidableEq

/-- An auction with its ledger of admitted bids, oldest first. -/
structure Auction where
  seller : Nat
  startingPrice : ℚ
  startTime : Int
  endTime : Int
  status : Status
  ledger : List Bid
  deriving DecidableEq

/-- The failures of `placeBid` (spec section 4.4). -/
inductive BidError where
  | AuctionNotFound
  | AuctionNotActive
  | SelfBid
  | BidTooLow
  deriving DecidableEq

/-- The auction store, keyed by auction id. -/
abbrev Store := Nat → Option Auction

/-- Modelled from the spec: the lifecycle scheduler is not among the sources.
Spec section 4.3, lazy mode: `upcoming` becomes `active` when now is at or after
the start, an open auction becomes `closed` when now is at or after the end, and
a transition is never reversed. -/
def reconcile (now : Int) (a : Auction) : Auction :=
  match a.status with
  | .closed => a
  | _ =>
    if a.endTime ≤ now then { a with status := .closed }
    else if a.startTime ≤ now then { a with status := .active }
    else a

/-- Modelled from the spec: the bid ledger is not among the sources.  Spec
section 4.2: the current high bid is the bid admitted last. -/
def highBid (a : Auction) : Option Bid :=
  a.ledger.getLast?

/-- Modelled from the spec: the floor of spec section 4.4 step 4,
`max(currentHighBid.amount, startingPrice)`, the starting price when there is
no bid yet. -/
def floor (a : Auction) : ℚ :=
  match highBid a with
  | none => a.startingPrice
  | some b => max b.amount a.startingPrice

/-- Modelled from the spec: the bid admission controller is not among the
sources.  Spec section 4.4, steps 1-6: resolve the auction, reconcile its
status, refuse when it is not active, refuse the seller, refuse an amount at or
below the floor, otherwise append the bid with the server's time stamp. -/
def placeBid (store : Store) (auctionId bidderId : Nat) (amount : ℚ) (requestTime : Int) :
    Except BidError Bid × Store :=
  match store auctionId with
  | none => (.error .AuctionNotFound, store)
  | some a =>
    let a1 := reconcile requestTime a
    if a1.status ≠ .active then
      (.error .AuctionNotActive, Function.update store auctionId (some a1))
    else if bidderId = a1.seller then
      (.error .SelfBid, Function.update store auctionId (some a1))
    else if amount ≤ floor a1 then
      (.error .BidTooLow, Function.update store auctionId (some a1))
    else
      (.ok ⟨auctionId, bidderId, amount, requestTime⟩,
        Function.update store auctionId
          (some { a1 with ledger := a1.ledger ++ [⟨auctionId, bidderId, amount, requestTime⟩] }))

/-- One `placeBid` request. -/
structure BidCall where
  auctionId : Nat
  bidderId : Nat
  amount : ℚ
  requestTime : Int

/-- A sequence of `placeBid` calls run one after the other: the final store and
the bids admitted, in admission order. -/
def placeBids : Store → List BidCall → Store × List Bid
  | store, [] => (store, [])
  | store, c :: cs =>
    match placeBid store c.auctionId c.bidderId c.amount c.requestTime with
    | (.ok bid, store1) => ((placeBids store1 cs).1, bid :: (placeBids store1 cs).2)
    | (.error _, store1) => placeBids store1 cs

/-- The amounts admitted on one auction, in admission order. -/
def admittedAmounts (bids : List Bid) (auctionId : Nat) : List ℚ :=
  (bids.filter fun b => decide (b.auction = auctionId)).map Bid.amount

/-- Amount of the current high bid of an auction of the store, if there is one. -/
def highAmount (store : Store) (auctionId : Nat) : Option ℚ :=
  (store auctionId).bind fun a => (highBid a).map Bid.amount

/-- Scenario A of the spec (section 8): auction 1, seller 7, starting price 100,
window from 0 to 3600000 ms. -/
def scenarioStore : Store :=
  fun id => if id = 1 then some ⟨7, 100, 0, 3600000, .upcoming, []⟩ else none

/-- The four bids of scenario A: 100 and 150 at 10 s, 120 at 20 s, 200 at 30 s. -/
def scenarioCalls : List BidCall :=
  [⟨1, 8, 100, 10000⟩, ⟨1, 8, 150, 10000⟩, ⟨1, 9, 120, 20000⟩, ⟨1, 9, 200, 30000⟩]

end BidEngine

/-! ## Properties of `createAuction` -/

section CreateAuction

theorem truthy_undefined : truthy .undefined = false := rfl

theorem truthy_empty : truthy (.str "") = false := by
  simp [truthy]

/-- Every response of `createAuction` has status 201, 400 or 500. -/
theorem createAuction_status (env : CreateEnv) (r : CreateRequest) :
    (createAuction env r).response.status = 201 ∨
      (createAuction env r).response.status = 400 ∨
      (createAuction env r).response.status = 500 := by
  unfold createAuction
  split_ifs <;> try simp [respond]
  split <;> try simp [respond]
  split <;> try simp [respond]
  split <;> simp [respond]

/-- The calls of a run of `createAuction` are nothing, an upload, or an upload
followed by one `Auction.create` whose argument is the request's own fields with
the principal as seller and the uploaded URL as image. -/
theorem createAuction_calls (env : CreateEnv) (r : CreateRequest) :
    (createAuction env r).calls = [] ∨
      (createAuction env r).calls = [.upload r.image] ∨
      ∃ uid url, r.user = some uid ∧ env.uploadOnCloudinary r.image = .object url ∧
        (createAuction env r).calls = [.upload r.image, .create (r.toInput uid url)] := by
  unfold createAuction
  split_ifs <;> try simp
  split <;> try simp
  split <;> try simp
  rename_i _ _ _ _ u hup _ uid hu
  split <;> exact Or.inr (Or.inr ⟨uid, hu, u, hup, rfl⟩)

/-- C2: if one of name, description, category, location, image, starting price,
start time or end time is absent or empty (any falsy value: `undefined` and the
empty string are falsy), `createAuction` answers 400 "All fields are required"
and calls neither the image store nor the auction store. -/
theorem createAuction_missing_field (env : CreateEnv) (r : CreateRequest)
    (h : ∃ v ∈ [r.name, r.description, r.category, r.location, r.image, r.startingPrice,
      r.startTime, r.endTime], v = .undefined ∨ v = .str "" ∨ truthy v = false) :
    (createAuction env r).response.status = 400 ∧
      (createAuction env r).response.message = .str "All fields are required" ∧
      (createAuction env r).calls = [] ∧
      persisted env (createAuction env r) = [] := by
  have hfalse : r.allPresent = false := by
    obtain ⟨v, hv, hv0⟩ := h
    have hv1 : truthy v = false := by
      rcases hv0 with h0 | h0 | h0
      · rw [h0]; rfl
      · rw [h0]; exact truthy_empty
      · exact h0
    simp only [List.mem_cons, List.mem_singleton, List.not_mem_nil, or_false] at hv
    unfold CreateRequest.allPresent
    rcases hv with h1 | h1 | h1 | h1 | h1 | h1 | h1 | h1 <;> subst h1 <;> simp [hv1]
  simp [createAuction, hfalse, respond, persisted]

/-- A request without a file is answered 400 and reaches no collaborator. -/
theorem createAuction_missing_field_witness :
    (createAuction sampleEnv { lampRequest with image := .undefined }).response.status = 400 ∧
      (createAuction sampleEnv { lampRequest with image := .undefined }).response.message
        = .str "All fields are required" ∧
      (createAuction sampleEnv { lampRequest with image := .undefined }).calls = [] ∧
      persisted sampleEnv (createAuction sampleEnv { lampRequest with image := .undefined })
        = [] :=
  createAuction_missing_field sampleEnv { lampRequest with image := .undefined }
    ⟨.undefined, by simp, Or.inl rfl⟩

/-- The response is 201 exactly when every input is truthy, neither guard of
lines 66 and 73 fires, the upload returned an object, a principal is attached and
the store returned a document; the response then carries that document. -/
theorem createAuction_201_iff (env : CreateEnv) (r : CreateRequest) :
    (createAuction env r).response.status = 201 ↔
      r.allPresent = true ∧ jsGe env.stringToNumber r.startTime r.endTime = false ∧
        jsLe env.stringToNumber r.startingPrice (.num (.fin 0)) = false ∧
        ∃ url uid doc, env.uploadOnCloudinary r.image = .object url ∧ r.user = some uid ∧
          env.create (r.toInput uid url) = .returned (some doc) ∧
          (createAuction env r).response.data = some doc := by
  unfold createAuction
  by_cases h1 : r.allPresent = true
  · by_cases h2 : jsGe env.stringToNumber r.startTime r.endTime = true
    · simp [h1, h2, respond]
    · by_cases h3 : jsLe env.stringToNumber r.startingPrice (.num (.fin 0)) = true
      · simp [h1, h2, h3, respond]
      · cases hup : env.uploadOnCloudinary r.image with
        | throws e => simp [h1, h2, h3, respond]
        | null => simp [h1, h2, h3, respond]
        | object url =>
          cases hu : r.user with
          | none => simp [h1, h2, h3, respond]
          | some uid =>
            cases hc : env.create (r.toInput uid url) with
            | throws e => simp [h1, h2, h3, hc, respond]
            | returned v =>
              cases v with
              | none => simp [h1, h2, h3, hc, respond]
              | some doc => simp [h1, h2, h3, hc]
  · simp [h1, respond]

/-- On two strings the guard of line 66 is the code-unit order of the texts. -/
theorem jsGe_strings (stringToNumber : String → JSNum) (a b : String) :
    jsGe stringToNumber (.str a) (.str b) = !lexLt (utf16 a) (utf16 b) := by
  cases h : lexLt (utf16 a) (utf16 b) <;> simp [jsGe, jsLt, h]

/-- A truthy value is a value for a required path. -/
theorem hasValue_of_truthy (v : JSVal) (h : truthy v = true) : hasValue v = true := by
  cases v with
  | undefined => cases h
  | null => cases h
  | bool b => simp [hasValue]
  | num n => simp [hasValue]
  | str s =>
    have hs : s ≠ "" := by simpa [truthy] using h
    simp [hasValue, hs]

/-- A request that passes the three tests of lines 50-77, whose upload returns
an object, which carries a principal and whose values the schema store accepts, is
answered 201 with the stored document, and that document is the one auction the
run persists. -/
theorem createAuction_persists (castObjectId : JSVal → Option JSVal)
    (castDate : JSVal → Option Int) (stringToNumber : String → JSNum) (now : Int)
    (upload : JSVal → UploadOutcome) (r : CreateRequest) (url uid c sl : JSVal) (s e : Int)
    (p : JSNum) (hpresent : r.allPresent = true)
    (hwindow : jsGe stringToNumber r.startTime r.endTime = false)
    (hprice : jsLe stringToNumber r.startingPrice (.num (.fin 0)) = false)
    (hup : upload r.image = .object url) (hu : r.user = some uid)
    (hurl : hasValue url = true) (huid : hasValue uid = true)
    (hc : castObjectId r.category = some c) (hsl : castObjectId uid = some sl)
    (hs : castDate r.startTime = some s) (he : castDate r.endTime = some e)
    (hp : castNumber stringToNumber r.startingPrice = some p) :
    (createAuction (schemaEnv castObjectId castDate stringToNumber now upload) r).response.status
        = 201 ∧
      (createAuction (schemaEnv castObjectId castDate stringToNumber now upload) r).response.data
        = some (AuctionDoc.mk r.name r.description c sl s e [] .undefined .upcoming r.location
          url p) ∧
      persisted (schemaEnv castObjectId castDate stringToNumber now upload)
          (createAuction (schemaEnv castObjectId castDate stringToNumber now upload) r)
        = [AuctionDoc.mk r.name r.description c sl s e [] .undefined .upcoming r.location
          url p] := by
  have hname : hasValue r.name = true := by
    apply hasValue_of_truthy
    simp only [CreateRequest.allPresent, Bool.and_eq_true] at hpresent
    exact hpresent.1.1.1.1.1.1.1
  have hcat : hasValue r.category = true := by
    apply hasValue_of_truthy
    simp only [CreateRequest.allPresent, Bool.and_eq_true] at hpresent
    exact hpresent.1.1.1.1.1.2
  have hcreate : schemaCreate castObjectId castDate stringToNumber (r.toInput uid url)
      = .returned (some (AuctionDoc.mk r.name r.description c sl s e [] .undefined .upcoming
        r.location url p)) := by
    simp [schemaCreate, CreateRequest.toInput, hname, hcat, hurl, huid, hc, hsl, hs, he, hp]
  refine ⟨?_, ?_, ?_⟩ <;>
    simp [createAuction, schemaEnv, hpresent, hwindow, hprice, hup, hu, hcreate, persisted,
      persistedBy]

/-- Whatever the store's casts are: when start and end are texts `a` and `b`
with `a` before `b` in code-unit order, and the rest of the request is
acceptable, the auction is persisted with the instants the store reads off `a`
and `b`; how those two instants compare plays no part. -/
theorem createAuction_window_by_text (castObjectId : JSVal → Option JSVal)
    (castDate : JSVal → Option Int) (stringToNumber : String → JSNum) (now : Int)
    (upload : JSVal → UploadOutcome) (r : CreateRequest) (a b : String) (s e : Int)
    (p : JSNum) (url uid c sl : JSVal)
    (hpresent : r.allPresent = true) (hstart : r.startTime = .str a) (hend : r.endTime = .str b)
    (htext : lexLt (utf16 a) (utf16 b) = true)
    (hprice : jsLe stringToNumber r.startingPrice (.num (.fin 0)) = false)
    (hup : upload r.image = .object url) (hu : r.user = some uid)
    (hurl : hasValue url = true) (huid : hasValue uid = true)
    (hc : castObjectId r.category = some c) (hsl : castObjectId uid = some sl)
    (hs : castDate (.str a) = some s) (he : castDate (.str b) = some e)
    (hp : castNumber stringToNumber r.startingPrice = some p) :
    (createAuction (schemaEnv castObjectId castDate stringToNumber now upload) r).response.status
        = 201 ∧
      (persisted (schemaEnv castObjectId castDate stringToNumber now upload)
          (createAuction (schemaEnv castObjectId castDate stringToNumber now upload) r)).map
        (fun doc => (doc.startTime, doc.endTime)) = [(s, e)] := by
  have hge : jsGe stringToNumber r.startTime r.endTime = false := by
    rw [hstart, hend, jsGe_strings, htext]
    rfl
  obtain ⟨h201, -, hpers⟩ :=
    createAuction_persists castObjectId castDate stringToNumber now upload r url uid c sl s e p
      hpresent hge hprice hup hu hurl huid hc hsl (hstart ▸ hs) (hend ▸ he) hp
  exact ⟨h201, by rw [hpers]; rfl⟩

/-- C1: the request with start "10000000" and end "9000000" (category and
principal being valid ids) passes the guard of line 66, because the guard
compares the two texts and "1" sorts before "9"; the handler answers 201 and the
store holds an auction that starts at 10000000 ms and ends at 9000000 ms, so its
start is not earlier than its end. -/
theorem createAuction_inverted_window_persisted :
    jsGe sampleEnv.stringToNumber invertedWindow.startTime invertedWindow.endTime = false ∧
      (createAuction sampleEnv invertedWindow).response.status = 201 ∧
      ∃ doc, persisted sampleEnv (createAuction sampleEnv invertedWindow) = [doc] ∧
        doc.startTime = 10000000 ∧ doc.endTime = 9000000 ∧ ¬ doc.startTime < doc.endTime := by
  refine ⟨by decide, by decide, _, rfl, ?_, ?_, ?_⟩ <;> decide

/-- C3: when `uploadOnCloudinary` resolves to nothing or throws, the run makes no
`Auction.create` call and persists nothing; a request that passes the three
tests of lines 50-77 is then answered 500 after the one upload call (any other
request was answered 400 before the image store was asked); and any
`Auction.create` call comes right after the upload call, the upload having
returned an object, with that object's `url` as its `image`. -/
theorem createAuction_upload_failure (env : CreateEnv) (r : CreateRequest) :
    ((env.uploadOnCloudinary r.image = .null ∨ ∃ e, env.uploadOnCloudinary r.image = .throws e) →
        (∀ input, Call.create input ∉ (createAuction env r).calls) ∧
        persisted env (createAuction env r) = [] ∧
        (r.allPresent = true → jsGe env.stringToNumber r.startTime r.endTime = false →
          jsLe env.stringToNumber r.startingPrice (.num (.fin 0)) = false →
          (createAuction env r).response.status = 500 ∧
            (createAuction env r).calls = [.upload r.image]) ∧
        (¬ (r.allPresent = true ∧ jsGe env.stringToNumber r.startTime r.endTime = false ∧
            jsLe env.stringToNumber r.startingPrice (.num (.fin 0)) = false) →
          (createAuction env r).response.status = 400 ∧ (createAuction env r).calls = []) ∧
        (Call.upload r.image ∈ (createAuction env r).calls →
          (createAuction env r).response.status = 500)) ∧
      (∀ input, Call.create input ∈ (createAuction env r).calls →
        ∃ url, env.uploadOnCloudinary r.image = .object url ∧ input.image = url ∧
          (createAuction env r).calls = [.upload r.image, .create input]) := by
  constructor
  · intro hfail
    refine ⟨?_, ?_, ?_, ?_, ?_⟩
    · unfold createAuction
      split_ifs
      · simp
      · simp
      · simp
      · rcases hfail with h | ⟨e, h⟩ <;> rw [h] <;> simp
    · unfold createAuction
      split_ifs
      · simp [persisted]
      · simp [persisted]
      · simp [persisted]
      · rcases hfail with h | ⟨e, h⟩ <;> rw [h] <;> simp [persisted, persistedBy]
    · intro h1 h2 h3
      rcases hfail with h | ⟨e, h⟩ <;> simp [createAuction, h1, h2, h3, h, respond]
    · intro hnot
      unfold createAuction
      by_cases h1 : r.allPresent = true
      · by_cases h2 : jsGe env.stringToNumber r.startTime r.endTime = true
        · simp [h1, h2, respond]
        · by_cases h3 : jsLe env.stringToNumber r.startingPrice (.num (.fin 0)) = true
          · simp [h1, h2, h3, respond]
          · exact absurd ⟨h1, by simpa using h2, by simpa using h3⟩ hnot
      · simp [h1, respond]
    · unfold createAuction
      split_ifs
      · simp
      · simp
      · simp
      · rcases hfail with h | ⟨e, h⟩ <;> rw [h] <;> simp [respond]
  · intro input hin
    rcases createAuction_calls env r with h | h | ⟨uid, url, _, hup, h⟩
    · rw [h] at hin; simp at hin
    · rw [h] at hin; simp at hin
    · rw [h] at hin
      simp only [List.mem_cons, List.mem_singleton, List.not_mem_nil, or_false] at hin
      rcases hin with hin | hin
      · cases hin
      · cases hin
        exact ⟨url, hup, rfl, h⟩

/-- The valid request `lampRequest`, sent while the image store resolves to
`null`, is answered 500 after the one upload call. -/
theorem createAuction_upload_failure_witness :
    (createAuction failingUploadEnv lampRequest).response.status = 500 ∧
      (createAuction failingUploadEnv lampRequest).calls = [.upload (.str "uploads/lamp.jpg")] :=
  ((createAuction_upload_failure failingUploadEnv lampRequest).1 (Or.inl rfl)).2.2.1
    (by decide) (by decide) (by decide)

/-- C4: at the request with start "10000000" and end "9000000" (category and
principal being valid ids) the response is 201 and carries the created record,
`Auction.create` having received the request's fields unchanged with the
principal as seller, although the record's start (10000000 ms) is after its end
(9000000 ms). -/
theorem createAuction_201_with_start_after_end :
    (createAuction sampleEnv invertedWindow).response.status = 201 ∧
      (createAuction sampleEnv invertedWindow).calls =
        [.upload (.str "uploads/lamp.jpg"),
          .create
            { name := .str "Lamp", description := .str "Brass lamp",
              category := .str "64b7f0c2a1d3e4f5a6b7c8d9",
              seller := .str "64b7f0c2a1d3e4f5a6b7c8da", startTime := .str "10000000",
              endTime := .str "9000000", location := .str "Lahore",
              image := .str "https://res.cloudinary.com/demo/lamp.jpg",
              startingPrice := .str "100" }] ∧
      ∃ doc, (createAuction sampleEnv invertedWindow).response.data = some doc ∧
        doc.endTime < doc.startTime := by
  refine ⟨by decide, by decide, _, rfl, ?_⟩
  decide

/-- A document the schema store returns has status `upcoming`. -/
theorem schemaCreate_status (castObjectId : JSVal → Option JSVal)
    (castDate : JSVal → Option Int) (stringToNumber : String → JSNum)
    (input : AuctionInput) (doc : AuctionDoc)
    (h : schemaCreate castObjectId castDate stringToNumber input = .returned (some doc)) :
    doc.status = .upcoming := by
  unfold schemaCreate at h
  split_ifs at h
  split at h
  · cases h
    rfl
  · cases h

/-- C6 (as stated, refuted): with the clock at 20000000 ms, the request whose
window opens at 10000000 ms is persisted with a status other than `active`. -/
theorem createAuction_started_not_active :
    ¬ ∀ doc ∈ persisted sampleEnv (createAuction sampleEnv lampRequest),
      (doc.startTime ≤ sampleEnv.now → doc.status = .active) ∧
        (sampleEnv.now < doc.startTime → doc.status = .upcoming) := by
  decide

/-- C6 (amended): a create request that passes validation, whose upload returns
an object and whose values the schema store accepts is answered 201 and persists
exactly one auction; `createAuction` hands the store no status, so that auction
has the default status `upcoming` whatever the clock reads, be it before, at or
after the start time `s`. -/
theorem createAuction_persists_upcoming (castObjectId : JSVal → Option JSVal)
    (castDate : JSVal → Option Int) (stringToNumber : String → JSNum) (now : Int)
    (upload : JSVal → UploadOutcome) (r : CreateRequest) (url uid c sl : JSVal) (s e : Int)
    (p : JSNum) (hpresent : r.allPresent = true)
    (hwindow : jsGe stringToNumber r.startTime r.endTime = false)
    (hprice : jsLe stringToNumber r.startingPrice (.num (.fin 0)) = false)
    (hup : upload r.image = .object url) (hu : r.user = some uid)
    (hurl : hasValue url = true) (huid : hasValue uid = true)
    (hc : castObjectId r.category = some c) (hsl : castObjectId uid = some sl)
    (hs : castDate r.startTime = some s) (he : castDate r.endTime = some e)
    (hp : castNumber stringToNumber r.startingPrice = some p) :
    (createAuction (schemaEnv castObjectId castDate stringToNumber now upload) r).response.status
        = 201 ∧
      (persisted (schemaEnv castObjectId castDate stringToNumber now upload)
          (createAuction (schemaEnv castObjectId castDate stringToNumber now upload) r)).map
        (fun doc => (doc.startTime, doc.status)) = [(s, .upcoming)] := by
  obtain ⟨h201, -, hpers⟩ :=
    createAuction_persists castObjectId castDate stringToNumber now upload r url uid c sl s e p
      hpresent hwindow hprice hup hu hurl huid hc hsl hs he hp
  exact ⟨h201, by rw [hpers]; rfl⟩

/-- The auction persisted for `lampRequest` started at 10000000 ms, before the
clock reading 20000000 ms, and is `upcoming`. -/
theorem createAuction_persists_upcoming_witness :
    (10000000 : Int) ≤ sampleEnv.now ∧
      (createAuction sampleEnv lampRequest).response.status = 201 ∧
      (persisted sampleEnv (createAuction sampleEnv lampRequest)).map
        (fun doc => (doc.startTime, doc.status)) = [(10000000, .upcoming)] :=
  ⟨by decide,
    createAuction_persists_upcoming (hexObjectId fun _ => none) (epochMillis fun _ => none)
      (decimalToNumber fun _ => .nan) 20000000 lampUpload lampRequest
      (.str "https://res.cloudinary.com/demo/lamp.jpg") (.str "64b7f0c2a1d3e4f5a6b7c8da")
      (.str "64b7f0c2a1d3e4f5a6b7c8d9") (.str "64b7f0c2a1d3e4f5a6b7c8da") 10000000 90000000
      (.fin 100) (by decide) (by decide) (by decide) rfl rfl (by decide) (by decide)
      (by decide) (by decide) (by decide) (by decide) (by decide)⟩

end CreateAuction

/-! ## Properties of `getAllAuctions` and `getSingleAuctionById` -/

section ReadAuctions

/-- C7: `getAllAuctions` queries the store once, with the filter it built; a
document satisfies that filter exactly when it satisfies every predicate whose
input is truthy (location equal, category equal, name matching `itemName` with
option "i"); an input that is `undefined` or the empty string sets no property;
and with no input at all the filter is empty and every document satisfies it. -/
theorem getAllAuctions_filter (find : AuctionFilter → StoreOutcome (List AuctionDoc))
    (regexTest : JSVal → String → JSVal → Bool) (r : ListRequest) (d : AuctionDoc) :
    (getAllAuctions find r).calls = [.find (buildFilter r)] ∧
      ((buildFilter r).holds regexTest d = true ↔
        (truthy r.location = true → d.location = r.location) ∧
        (truthy r.category = true → d.category = r.category) ∧
        (truthy r.itemName = true → regexTest r.itemName "i" d.name = true)) ∧
      ((r.location = .undefined ∨ r.location = .str "") → (buildFilter r).location = none) ∧
      ((r.category = .undefined ∨ r.category = .str "") → (buildFilter r).category = none) ∧
      ((r.itemName = .undefined ∨ r.itemName = .str "") → (buildFilter r).name = none) ∧
      (∀ s : String, s ≠ "" →
        (buildFilter { r with location := .str s }).location = some (.str s) ∧
        (buildFilter { r with category := .str s }).category = some (.str s) ∧
        (buildFilter { r with itemName := .str s }).name = some ⟨.str s, "i"⟩) ∧
      (buildFilter ⟨.undefined, .undefined, .undefined⟩ = ⟨none, none, none⟩ ∧
        AuctionFilter.holds regexTest ⟨none, none, none⟩ d = true) := by
  refine ⟨?_, ?_, ?_, ?_, ?_, ?_, ?_⟩
  · unfold getAllAuctions
    split <;> rfl
  · unfold buildFilter AuctionFilter.holds
    cases h1 : truthy r.location <;> cases h2 : truthy r.category <;>
      cases h3 : truthy r.itemName <;> simp [and_assoc]
  · rintro (h | h) <;> simp [buildFilter, h, truthy]
  · rintro (h | h) <;> simp [buildFilter, h, truthy]
  · rintro (h | h) <;> simp [buildFilter, h, truthy]
  · intro s hs
    simp [buildFilter, truthy, hs]
  · exact ⟨rfl, rfl⟩

/-- C8: when the store finds nothing, `Auction.find` resolves to the empty
array; the test `!auctions` of line 139 is then false and `getAllAuctions`
answers 200 "Auctions retrieved successfully" with the empty list, not 404. -/
theorem getAllAuctions_empty_is_200 (r : ListRequest) :
    (getAllAuctions (fun _ => .returned (some [])) r).response.status = 200 ∧
      (getAllAuctions (fun _ => .returned (some [])) r).response.message
        = .str "Auctions retrieved successfully" ∧
      (getAllAuctions (fun _ => .returned (some [])) r).response.data = some [] :=
  ⟨rfl, rfl, rfl⟩

/-- Whatever array the store resolves to, `getAllAuctions` answers 200 with it. -/
theorem getAllAuctions_array (find : AuctionFilter → StoreOutcome (List AuctionDoc))
    (r : ListRequest) (auctions : List AuctionDoc)
    (h : find (buildFilter r) = .returned (some auctions)) :
    (getAllAuctions find r).response.status = 200 ∧
      (getAllAuctions find r).response.data = some auctions := by
  simp [getAllAuctions, h]

/-- C9: `getSingleAuctionById` answers 404 "Auction not found" when the lookup
finds no auction, 200 with the auction when it finds one, and 500 only when the
lookup throws; its single store call is the lookup, which is not a write. -/
theorem getSingleAuctionById_contract {α : Type} (lookup : JSVal → StoreOutcome α) (id : JSVal) :
    (lookup id = .returned none →
        (getSingleAuctionById lookup id).response.status = 404 ∧
        (getSingleAuctionById lookup id).response.message = .str "Auction not found") ∧
      (∀ auction, lookup id = .returned (some auction) →
        (getSingleAuctionById lookup id).response.status = 200 ∧
        (getSingleAuctionById lookup id).response.data = some auction) ∧
      ((getSingleAuctionById lookup id).response.status = 500 ↔ ∃ e, lookup id = .throws e) ∧
      (getSingleAuctionById lookup id).calls = [.findById id] ∧
      (∀ c ∈ (getSingleAuctionById lookup id).calls, c.isWrite = false) := by
  unfold getSingleAuctionById
  cases h : lookup id with
  | throws e => simp [respond, Call.isWrite]
  | returned v =>
    cases v with
    | none => simp [respond, Call.isWrite]
    | some a => simp [respond, Call.isWrite]

end ReadAuctions

/-! ## Properties of `updateUserProfile` -/

section UpdateProfile

/-- A user is handed to `user.save()` only when the user was found and the
upload returned an object with a truthy `url`; the saved user is then the found
one with the assignments of lines 254-263 applied, and its picture is that `url`. -/
theorem updateUserProfile_saved (env : ProfileEnv) (r : ProfileRequest) (u : UserDoc)
    (h : u ∈ savedUsers (updateUserProfile env r)) :
    ∃ old url, env.findById r.userId = .returned (some old) ∧
      env.uploadOnCloudinary r.profilePath = .object url ∧ truthy url = true ∧
      u = applyProfile r url old ∧ u.profilePicture = url := by
  unfold updateUserProfile at h
  split at h
  · simp [savedUsers] at h
  · simp [savedUsers] at h
  · rename_i old hold
    split at h
    · simp [savedUsers] at h
    · simp [savedUsers] at h
    · rename_i url hurl
      split_ifs at h with ht
      · simp [savedUsers] at h
      · have htr : truthy url = true := by simpa using ht
        have hu : u = applyProfile r url old := by
          split at h <;> simpa [savedUsers] using h
        exact ⟨old, url, hold, hurl, htr, hu, by rw [hu]; simp [applyProfile, htr]⟩

/-- C10: for the existing user `sampleUser`, a request that supplies a new full
name and no picture is answered 500 with the `TypeError` of line 250 and nothing
is saved: the name is not updated and no user is stored. -/
theorem updateUserProfile_without_picture :
    (updateUserProfile profileEnv renameRequest).response.status = 500 ∧
      (updateUserProfile profileEnv renameRequest).response.message = nullUrlError.message ∧
      savedUsers (updateUserProfile profileEnv renameRequest) = [] ∧
      (updateUserProfile profileEnv renameRequest).calls
        = [.findById (.str "u1"), .upload .undefined] := by
  decide

end UpdateProfile

/-! ## Properties of `loginUser` and `resetPassword` -/

section Auth

/-- The run of `loginUser` makes no call exactly when both the address and the
password are falsy; as soon as one of them is present the first call is the
lookup `User.findOne({ email })`. -/
theorem loginUser_calls (env : LoginEnv) (r : LoginRequest) :
    ((loginUser env r).calls = [] ↔ truthy r.email = false ∧ truthy r.password = false) ∧
      ((truthy r.email = true ∨ truthy r.password = true) →
        (loginUser env r).calls.head? = some (.findOne r.email)) := by
  unfold loginUser
  cases he : truthy r.email <;> cases hp : truthy r.password <;> simp <;>
    (split <;> try simp) <;> (split <;> try simp) <;> (split <;> try simp) <;>
    (split <;> simp)

/-- The answer 400 "Email and password are required" is sent exactly when both
the address and the password are falsy. -/
theorem loginUser_required_iff (env : LoginEnv) (r : LoginRequest) :
    sentMessage (loginUser env r) = some (.str "Email and password are required") ↔
      truthy r.email = false ∧ truthy r.password = false := by
  unfold loginUser
  by_cases hb : (!truthy r.password && !truthy r.email) = true
  · rw [if_pos hb]
    simp only [Bool.and_eq_true, Bool.not_eq_true'] at hb
    simp [sentMessage, respond, hb]
  · rw [if_neg hb]
    have hb2 : ¬ (truthy r.email = false ∧ truthy r.password = false) := by
      simpa [and_comm] using hb
    cases env.findOne r.email with
    | throws e => simp [sentMessage, hb2]
    | returned v =>
      cases v with
      | none => simp [sentMessage, respond, hb2]
      | some user =>
        dsimp only
        cases env.compare r.password user.password with
        | error e => simp [sentMessage, hb2]
        | ok b =>
          cases b with
          | false => simp [sentMessage, respond, hb2]
          | true =>
            dsimp only
            cases env.generateJwtToken user with
            | error e => simp [sentMessage, hb2]
            | ok token =>
              dsimp only
              cases env.findById user.id with
              | throws e => simp [sentMessage, hb2]
              | returned u => simp [sentMessage, hb2]

/-- C11: a login request with the address and no password is not answered 400:
the user is looked up and the passwords are compared, and the comparison error
escapes; a request with a password and no address is looked up and answered 404
"User not found". -/
theorem loginUser_one_field_missing :
    (loginUser loginEnv emailOnly).calls
        = [.findOne (.str "old@example.com"), .compare .undefined (.str "hash")] ∧
      sentStatus (loginUser loginEnv emailOnly) = none ∧
      (loginUser loginEnv passwordOnly).calls = [.findOne .undefined] ∧
      sentStatus (loginUser loginEnv passwordOnly) = some 404 ∧
      sentMessage (loginUser loginEnv passwordOnly) = some (.str "User not found") := by
  decide

/-- A strict comparison that holds is an equality. -/
theorem strictEq_eq (a b : JSVal) (h : strictEq a b = true) : a = b := by
  unfold strictEq at h
  split at h
  · cases h
  · cases h
  · simpa using h

/-- The two ways a run of `resetPassword` goes: it leaves the store alone and
does not answer 200; or every test of lines 184-200 passed and the save
succeeded, the answer is 200 and the store holds the reset user. -/
theorem resetPassword_cases (env : ResetEnv) (now : Int) (users : Users) (r : ResetRequest) :
    ((resetPassword env now users r).2 = users ∧
        sentStatus (resetPassword env now users r).1 ≠ some 200) ∨
      (truthy r.id = true ∧ truthy r.token = true ∧ truthy r.password = true ∧
        env.lookupError r.id = none ∧
        ∃ old, users r.id = some old ∧ truthy old.resetToken = true ∧
          strictEq old.resetToken r.token = true ∧
          jsLt env.stringToNumber old.resetTokenExpire (.num (.fin now)) ≠ some true ∧
          env.saveError (applyReset r.password old) = none ∧
          sentStatus (resetPassword env now users r).1 = some 200 ∧
          (resetPassword env now users r).1.calls
            = [.findById r.id, .save (applyReset r.password old)] ∧
          (resetPassword env now users r).2 = Function.update users r.id
            (some { applyReset r.password old with password := env.hash r.password })) := by
  unfold resetPassword
  by_cases h1 : (!truthy r.id || !truthy r.token || !truthy r.password) = true
  · rw [if_pos h1]
    exact Or.inl ⟨rfl, by simp [sentStatus, respond]⟩
  · rw [if_neg h1]
    have hid : truthy r.id = true := by
      cases h : truthy r.id <;> simp [h] at h1 ⊢
    have htok : truthy r.token = true := by
      cases h : truthy r.token <;> simp [h] at h1 ⊢
    have hpw : truthy r.password = true := by
      cases h : truthy r.password <;> simp [h] at h1 ⊢
    cases hl : env.lookupError r.id with
    | some e => exact Or.inl ⟨rfl, by simp [sentStatus]⟩
    | none =>
      dsimp only
      cases hu : users r.id with
      | none => exact Or.inl ⟨rfl, by simp [sentStatus, respond]⟩
      | some old =>
        dsimp only
        by_cases h2 : (!truthy old.resetToken) = true
        · rw [if_pos h2]
          exact Or.inl ⟨rfl, by simp [sentStatus, respond]⟩
        · rw [if_neg h2]
          by_cases h3 : (!strictEq old.resetToken r.token) = true
          · rw [if_pos h3]
            exact Or.inl ⟨rfl, by simp [sentStatus, respond]⟩
          · rw [if_neg h3]
            by_cases h4 : jsLt env.stringToNumber old.resetTokenExpire (.num (.fin now))
                = some true
            · rw [if_pos h4]
              exact Or.inl ⟨rfl, by simp [sentStatus, respond]⟩
            · rw [if_neg h4]
              cases hs : env.saveError (applyReset r.password old) with
              | some e => exact Or.inl ⟨rfl, by simp [sentStatus, respond]⟩
              | none =>
                refine Or.inr ⟨hid, htok, hpw, rfl, old, rfl, ?_, ?_, h4, hs, ?_, rfl, rfl⟩
                · simpa using h2
                · simpa using h3
                · simp [sentStatus, respond]

/-- C12: `resetPassword` changes the store only when the request carries an id, a
token and a new password, the user exists, the stored reset token is set and
equals the request's token, and the comparison `resetTokenExpire < Date.now()`
is not true (for a numeric expiry: now is at most the expiry); a run answered
200 stores the new password with the token and the expiry cleared and leaves
every other user alone; and after such a run, another call for the same id and
token, at any time and with any new password, is answered 400 "Invalid reset
link" and leaves the store, hence the password, as it is. -/
theorem resetPassword_single_use (env : ResetEnv) (now : Int) (users : Users)
    (r : ResetRequest) :
    ((resetPassword env now users r).2 ≠ users →
        truthy r.id = true ∧ truthy r.token = true ∧ truthy r.password = true ∧
        ∃ old, users r.id = some old ∧ truthy old.resetToken = true ∧
          old.resetToken = r.token ∧
          jsLt env.stringToNumber old.resetTokenExpire (.num (.fin now)) ≠ some true ∧
          ∀ e : ℚ, old.resetTokenExpire = .num (.fin e) → (now : ℚ) ≤ e) ∧
      (sentStatus (resetPassword env now users r).1 = some 200 →
        ∃ old saved, users r.id = some old ∧
          (resetPassword env now users r).2 r.id = some saved ∧
          saved.password = env.hash r.password ∧ saved.resetToken = .undefined ∧
          saved.resetTokenExpire = .undefined ∧
          ∀ id, id ≠ r.id → (resetPassword env now users r).2 id = users id) ∧
      (sentStatus (resetPassword env now users r).1 = some 200 →
        ∀ (now2 : Int) (password2 : JSVal), truthy password2 = true →
          sentStatus (resetPassword env now2 (resetPassword env now users r).2
              { r with password := password2 }).1 = some 400 ∧
            sentMessage (resetPassword env now2 (resetPassword env now users r).2
              { r with password := password2 }).1 = some (.str "Invalid reset link") ∧
            (resetPassword env now2 (resetPassword env now users r).2
              { r with password := password2 }).2 = (resetPassword env now users r).2) := by
  rcases resetPassword_cases env now users r with
    ⟨hsame, hnot⟩ | ⟨hid, htok, hpw, hl, old, hold, htr, heq, hexp, -, hok, -, hstore⟩
  · exact ⟨fun h => absurd hsame h, fun h => absurd h hnot, fun h => absurd h hnot⟩
  · refine ⟨fun _ => ⟨hid, htok, hpw, old, hold, htr, strictEq_eq _ _ heq, hexp, ?_⟩, ?_, ?_⟩
    · intro e he
      rw [he] at hexp
      simp only [jsLt, toNumber, JSNum.lt, ne_eq, Option.some.injEq, decide_eq_true_eq] at hexp
      exact not_lt.mp hexp
    · intro _
      have hsaved := congrFun hstore r.id
      rw [Function.update_same] at hsaved
      refine ⟨old, _, hold, hsaved, rfl, rfl, rfl, ?_⟩
      intro id hne
      rw [hstore]
      exact Function.update_noteq hne _ _
    · intro _ now2 password2 hp2
      rw [hstore]
      simp [resetPassword, hid, htok, hp2, hl, applyReset, truthy_undefined, sentStatus,
        sentMessage, respond]

/-- The sample reset: at 1000 ms the first call is answered 200, and a second
call with the same token at 2000 ms is answered 400 "Invalid reset link". -/
theorem resetPassword_single_use_witness :
    sentStatus (resetPassword resetEnv 1000 resetUsers resetRequest).1 = some 200 ∧
      sentMessage (resetPassword resetEnv 2000
          (resetPassword resetEnv 1000 resetUsers resetRequest).2
          { resetRequest with password := .str "fresh" }).1
        = some (.str "Invalid reset link") :=
  ⟨by decide,
    ((resetPassword_single_use resetEnv 1000 resetUsers resetRequest).2.2 (by decide) 2000
      (.str "fresh") (by decide)).2.1⟩

/-- The sample reset changes the stored password of "u1" from "hash" to "fresh"
once; after the second call it is still "fresh". -/
theorem resetPassword_sample_passwords :
    (resetUsers (.str "u1")).map UserDoc.password = some (.str "hash") ∧
      ((resetPassword resetEnv 1000 resetUsers resetRequest).2 (.str "u1")).map UserDoc.password
        = some (.str "fresh") ∧
      ((resetPassword resetEnv 2000 (resetPassword resetEnv 1000 resetUsers resetRequest).2
          { resetRequest with password := .str "again" }).2 (.str "u1")).map UserDoc.password
        = some (.str "fresh") := by
  decide

end Auth

/-! ## Properties of bid admission -/

namespace BidEngine

theorem reconcile_ledger (now : Int) (a : Auction) : (reconcile now a).ledger = a.ledger := by
  unfold reconcile
  split
  · rfl
  · split_ifs <;> rfl

theorem reconcile_startingPrice (now : Int) (a : Auction) :
    (reconcile now a).startingPrice = a.startingPrice := by
  unfold reconcile
  split
  · rfl
  · split_ifs <;> rfl

theorem floor_reconcile (now : Int) (a : Auction) : floor (reconcile now a) = floor a := by
  simp [floor, highBid, reconcile_ledger, reconcile_startingPrice]

/-- The floor is at least the amount of the current high bid. -/
theorem highBid_le_floor (a : Auction) (b : Bid) (h : highBid a = some b) :
    b.amount ≤ floor a := by
  simp [floor, h]

/-- A call leaves every other auction as it was. -/
theorem placeBid_other (store : Store) (auctionId bidderId : Nat) (amount : ℚ)
    (requestTime : Int) (id : Nat) (h : id ≠ auctionId) :
    (placeBid store auctionId bidderId amount requestTime).2 id = store id := by
  unfold placeBid
  split
  · rfl
  · dsimp only
    split_ifs <;> simp [Function.update, h]

/-- An admitted bid is the requested one, on an auction that exists, is active
after reconciliation, is not the bidder's own and whose floor is below the
amount; the bid is appended to that auction's ledger. -/
theorem placeBid_ok (store : Store) (auctionId bidderId : Nat) (amount : ℚ)
    (requestTime : Int) (bid : Bid)
    (h : (placeBid store auctionId bidderId amount requestTime).1 = .ok bid) :
    bid = ⟨auctionId, bidderId, amount, requestTime⟩ ∧
      ∃ a, store auctionId = some a ∧ (reconcile requestTime a).status = .active ∧
        bidderId ≠ a.seller ∧ floor a < amount ∧
        ∃ a2, (placeBid store auctionId bidderId amount requestTime).2 auctionId = some a2 ∧
          a2.ledger = a.ledger ++ [bid] := by
  unfold placeBid at h ⊢
  split at h
  · cases h
  · rename_i a ha
    have hseller : (reconcile requestTime a).seller = a.seller := by
      unfold reconcile
      split
      · rfl
      · split_ifs <;> rfl
    dsimp only at h ⊢
    split_ifs at h ⊢ with h1 h2 h3
    cases h
    refine ⟨rfl, a, ha, ?_, ?_, ?_, ?_⟩
    · simpa using h1
    · rw [← hseller]; exact h2
    · rw [← floor_reconcile requestTime a]; exact lt_of_not_le h3
    · refine ⟨_, Function.update_same _ _ _, ?_⟩
      simp [reconcile_ledger]

/-- A refused call leaves the high bid of its auction as it was. -/
theorem placeBid_error (store : Store) (auctionId bidderId : Nat) (amount : ℚ)
    (requestTime : Int) (e : BidError)
    (h : (placeBid store auctionId bidderId amount requestTime).1 = .error e) :
    highAmount (placeBid store auctionId bidderId amount requestTime).2 auctionId
      = highAmount store auctionId := by
  unfold placeBid at h ⊢
  split at h
  · rename_i hnone
    simp [hnone]
  · rename_i a ha
    dsimp only at h ⊢
    split_ifs at h ⊢ <;>
      simp [highAmount, highBid, Function.update, ha, reconcile_ledger]

theorem highAmount_congr (s1 s2 : Store) (id : Nat) (h : s1 id = s2 id) :
    highAmount s1 id = highAmount s2 id := by
  simp [highAmount, h]

/-- The amounts admitted on an auction by a sequence of calls increase strictly,
and each of them exceeds the high bid the auction had before the sequence. -/
theorem placeBids_admitted (calls : List BidCall) :
    ∀ (store : Store) (id : Nat),
      List.Pairwise (· < ·) (admittedAmounts (placeBids store calls).2 id) ∧
        ∀ m, highAmount store id = some m →
          ∀ x ∈ admittedAmounts (placeBids store calls).2 id, m < x := by
  induction calls with
  | nil =>
    intro store id
    simp [placeBids, admittedAmounts]
  | cons c cs ih =>
    intro store id
    unfold placeBids
    split
    · rename_i bid store1 hres
      have hfst : (placeBid store c.auctionId c.bidderId c.amount c.requestTime).1 = .ok bid := by
        rw [hres]
      have hsnd : (placeBid store c.auctionId c.bidderId c.amount c.requestTime).2 = store1 := by
        rw [hres]
      obtain ⟨hbid, a, ha, -, -, hfloor, a2, ha2, hledger⟩ :=
        placeBid_ok store c.auctionId c.bidderId c.amount c.requestTime bid hfst
      rw [hsnd] at ha2
      have hauction : bid.auction = c.auctionId := by rw [hbid]
      have hamount : bid.amount = c.amount := by rw [hbid]
      by_cases hid : id = c.auctionId
      · subst hid
        have hhigh : highAmount store1 c.auctionId = some bid.amount := by
          simp [highAmount, highBid, ha2, hledger]
        obtain ⟨hsorted, habove⟩ := ih store1 c.auctionId
        have hcons : admittedAmounts (bid :: (placeBids store1 cs).2) c.auctionId
            = bid.amount :: admittedAmounts (placeBids store1 cs).2 c.auctionId := by
          simp [admittedAmounts, hauction]
        dsimp only
        rw [hcons]
        refine ⟨List.pairwise_cons.mpr ⟨habove _ hhigh, hsorted⟩, ?_⟩
        intro m hm x hx
        have hmlt : m < bid.amount := by
          have hm2 : (highBid a).map Bid.amount = some m := by
            unfold highAmount at hm
            rw [ha] at hm
            exact hm
          cases hb : highBid a with
          | none =>
            rw [hb] at hm2
            cases hm2
          | some b =>
            rw [hb] at hm2
            have hbm : b.amount = m := Option.some.inj hm2
            have hle := highBid_le_floor a b hb
            rw [hamount, ← hbm]
            exact lt_of_le_of_lt hle hfloor
        rcases List.mem_cons.mp hx with hx | hx
        · rw [hx]; exact hmlt
        · exact lt_trans hmlt (habove _ hhigh x hx)
      · have hsame : store1 id = store id := by
          rw [← hsnd]
          exact placeBid_other store c.auctionId c.bidderId c.amount c.requestTime id hid
        have hskip : admittedAmounts (bid :: (placeBids store1 cs).2) id
            = admittedAmounts (placeBids store1 cs).2 id := by
          have hne : ¬ bid.auction = id := by
            rw [hauction]
            exact fun h => hid h.symm
          simp [admittedAmounts, hne]
        dsimp only
        rw [hskip, ← highAmount_congr store1 store id hsame]
        exact ih store1 id
    · rename_i e store1 hres
      have hfst : (placeBid store c.auctionId c.bidderId c.amount c.requestTime).1 = .error e := by
        rw [hres]
      have hsnd : (placeBid store c.auctionId c.bidderId c.amount c.requestTime).2 = store1 := by
        rw [hres]
      have hhigh : highAmount store1 id = highAmount store id := by
        by_cases hid : id = c.auctionId
        · subst hid
          rw [← hsnd]
          exact placeBid_error store c.auctionId c.bidderId c.amount c.requestTime e hfst
        · apply highAmount_congr
          rw [← hsnd]
          exact placeBid_other store c.auctionId c.bidderId c.amount c.requestTime id hid
      rw [← hhigh]
      exact ih store1 id

/-- C5: `placeBid` admits a bid only on an existing auction whose floor
`max(current high bid amount, starting price)` is strictly below the amount; on
an active auction a bidder other than the seller who offers an amount at or
below the floor is refused with `BidTooLow`; and for every store, every sequence
of `placeBid` calls and every auction, the amounts admitted on that auction
increase strictly in admission order. -/
theorem placeBid_strictly_increasing :
    (∀ (store : Store) (auctionId bidderId : Nat) (amount : ℚ) (requestTime : Int) (bid : Bid),
        (placeBid store auctionId bidderId amount requestTime).1 = .ok bid →
        bid.amount = amount ∧ ∃ a, store auctionId = some a ∧ floor a < amount) ∧
      (∀ (store : Store) (auctionId bidderId : Nat) (amount : ℚ) (requestTime : Int) (a : Auction),
        store auctionId = some a → (reconcile requestTime a).status = .active →
        bidderId ≠ a.seller → amount ≤ floor a →
        (placeBid store auctionId bidderId amount requestTime).1 = .error .BidTooLow) ∧
      (∀ (store : Store) (calls : List BidCall) (auctionId : Nat),
        List.Pairwise (· < ·) (admittedAmounts (placeBids store calls).2 auctionId)) := by
  refine ⟨?_, ?_, ?_⟩
  · intro store auctionId bidderId amount requestTime bid h
    obtain ⟨hbid, a, ha, -, -, hfloor, -⟩ :=
      placeBid_ok store auctionId bidderId amount requestTime bid h
    exact ⟨by rw [hbid], a, ha, hfloor⟩
  · intro store auctionId bidderId amount requestTime a ha hactive hseller hlow
    have hsel : (reconcile requestTime a).seller = a.seller := by
      unfold reconcile
      split
      · rfl
      · split_ifs <;> rfl
    unfold placeBid
    rw [ha]
    dsimp only
    rw [if_neg (by simpa using hactive), if_neg (by rw [hsel]; exact hseller),
      if_pos (by rw [floor_reconcile]; exact hlow)]
  · intro store calls auctionId
    exact (placeBids_admitted calls store auctionId).1

/-- Scenario A of the spec: of the bids 100, 150, 120 and 200 on an auction
starting at 100, exactly 150 and 200 are admitted, in that order. -/
theorem scenarioA_admitted :
    admittedAmounts (placeBids scenarioStore scenarioCalls).2 1 = [150, 200] := by
  decide

end BidEngine

end AuctionSite
